import Mathlib

/-!
# Verification of the vibetest discovery engine and execution pipeline

A shallow embedding, in Lean 4, of the core of the `vibetest` security
scanner: the route cache (`src/core/route-cache.ts`), the cached discovery
engine (`src/core/crawler.ts`, cached variant), and the execution pipeline of
`src/core/runner.ts` (rate-limit-aware client factory and check scheduler).

Conventions of the embedding:
* JavaScript arrays become `List`, objects with string keys become
  insertion-ordered association lists, `undefined`/absent values become
  `Option`.
* Code that can throw is modelled with `Except String`; a `try`/`catch`
  becomes a `match` on the `Except` value.
* Network and filesystem effects are passed in explicitly: an HTTP probe is a
  function `String → Option ProbeResponse` (`none` models a network-level
  failure, i.e. the request promise rejecting), the cache file on disk is a
  `CacheFile` value describing what reading and parsing it would produce.
* The md5 digest used as the cache key (`hashBaseUrl`) is modelled by the
  identity function on the base-URL string: the digest's only relevant
  property is that distinct base URLs receive distinct keys.
* `JSON.stringify(response.data)` and cheerio's anchor extraction are not
  re-implemented; the serialized body, respectively the anchor `href` list of
  an HTML document, are taken as inputs.
-/

namespace Vibetest

/-! ## Data model (`src/core/types.ts`) -/

/-- HTTP method of a discovered route (`Route.method` in `types.ts`). -/
inductive Method where
  | GET
  | POST
  | PUT
  | DELETE
  | PATCH
deriving DecidableEq, Repr

/-- A discovered route (`Route` in `types.ts`). The optional `inputs` and
`authRequired` fields are never set by the discovery engine and are omitted. -/
structure Route where
  path : String
  method : Method
deriving DecidableEq, Repr

/-- Severity of a finding (`RiskLevel` in `types.ts`). -/
inductive RiskLevel where
  | low
  | medium
  | high
  | critical
deriving DecidableEq, Repr

/-- Category of a finding (`FindingCategory` in `types.ts`). -/
inductive FindingCategory where
  | frontend
  | backend
  | config
  | logic
deriving DecidableEq, Repr

/-- A vulnerability finding (`Finding` in `types.ts`). -/
structure Finding where
  id : String
  checkId : String
  category : Option FindingCategory
  name : String
  endpoint : String
  risk : RiskLevel
  description : String
  assumption : String
  reproduction : String
  fix : String
deriving DecidableEq, Repr

/-! ## Route cache (`src/core/route-cache.ts`) -/

/-- One cached probe outcome (`CacheEntry` in `route-cache.ts`). -/
structure CacheEntry where
  path : String
  «exists» : Bool
  status : Option Nat
  lastChecked : String
deriving DecidableEq, Repr

/-- The per-target record stored under one hash key in the cache object. -/
structure TargetRecord where
  baseUrl : String
  entries : List CacheEntry
deriving DecidableEq, Repr

/-- The persisted store (`RouteCache` in `route-cache.ts`): a JavaScript
object keyed by the base-URL hash, modelled as an insertion-ordered
association list with unique keys. -/
abbrev RouteCache := List (String × TargetRecord)

/-- `hashBaseUrl` of `route-cache.ts` computes the md5 hex digest of the base
URL. The digest is modelled by the identity function: its only property used
anywhere is that it is a deterministic map that separates distinct base
URLs. -/
def hashBaseUrl (baseUrl : String) : String := baseUrl

/-- Key lookup in a JavaScript object (`cache[hash]`). -/
def lookupKey : RouteCache → String → Option TargetRecord
  | [], _ => none
  | (k', v') :: t, k => if k' == k then some v' else lookupKey t k

/-- Key assignment in a JavaScript object (`cache[hash] = record`): replace
the existing binding if the key is present, otherwise append a new one. -/
def setKey : RouteCache → String → TargetRecord → RouteCache
  | [], k, v => [(k, v)]
  | (k', v') :: t, k, v =>
      if k' == k then (k, v) :: t else (k', v') :: setKey t k v

/-- `Array.prototype.findIndex`: index of the first element satisfying the
predicate, `none` for JavaScript's `-1`. -/
def findIndex (p : α → Bool) : List α → Option Nat
  | [] => none
  | a :: t => if p a then some 0 else (findIndex p t).map (· + 1)

/-- The merge loop of `updateCache` (`route-cache.ts` lines 96‑108): one step
processes one new entry against the accumulated entries list.
`existingPaths` is the path set computed from the stored entries *before* the
loop started. A JavaScript assignment at index `-1` leaves the array's
elements unchanged, hence the `none` branch. -/
def upsertStep (existingPaths : List String) (acc : List CacheEntry)
    (newEntry : CacheEntry) : List CacheEntry :=
  if existingPaths.contains newEntry.path then
    match findIndex (fun e => e.path == newEntry.path) acc with
    | some i => acc.set i newEntry
    | none => acc
  else
    acc ++ [newEntry]

/-- The entries-merging core of `updateCache`: fold the merge step over the
new entries, starting from the stored entries. -/
def updateEntries (entries newEntries : List CacheEntry) : List CacheEntry :=
  newEntries.foldl (upsertStep (entries.map (·.path))) entries

/-- `updateCache` of `route-cache.ts`, with the load/save round-trip replaced
by explicit store passing: ensure a record for the target exists, merge the
new entries into its entries list, and store the result. -/
def updateCache (cache : RouteCache) (baseUrl : String)
    (newEntries : List CacheEntry) : RouteCache :=
  let hash := hashBaseUrl baseUrl
  let record := (lookupKey cache hash).getD ⟨baseUrl, []⟩
  setKey cache hash ⟨record.baseUrl, updateEntries record.entries newEntries⟩

/-- The entries stored for a given hash key (empty when the key is absent). -/
def entriesFor (cache : RouteCache) (hash : String) : List CacheEntry :=
  match lookupKey cache hash with
  | some record => record.entries
  | none => []

/-- `getCachedPaths` of `route-cache.ts`: every path ever recorded for the
target. The JavaScript `Set` is modelled as the underlying list, queried only
through membership. -/
def getCachedPaths (cache : RouteCache) (baseUrl : String) : List String :=
  match lookupKey cache (hashBaseUrl baseUrl) with
  | some record => record.entries.map (·.path)
  | none => []

/-- `getCachedExistingPaths` of `route-cache.ts`: the entries recorded as
existing for the target. -/
def getCachedExistingPaths (cache : RouteCache) (baseUrl : String) :
    List CacheEntry :=
  match lookupKey cache (hashBaseUrl baseUrl) with
  | some record => record.entries.filter (·.«exists»)
  | none => []

/-! ## Cache persistence (`loadCache` / `saveCache` of `route-cache.ts`)

The filesystem and JSON layers are abstracted into the outcome categories the
`fs.readFileSync` / `JSON.parse` / `fs.writeFileSync` pipeline can produce. -/

/-- The on-disk state of the cache file, as seen by a read attempt. -/
inductive CacheFile where
  /-- `fs.existsSync` is false. -/
  | missing
  /-- The file exists but `fs.readFileSync` throws. -/
  | unreadable
  /-- The file is readable but `JSON.parse` throws. -/
  | invalid
  /-- The file is readable and parses to `store`. -/
  | valid (store : RouteCache)
deriving DecidableEq

/-- `fs.existsSync(CACHE_FILE)`. -/
def existsSync : CacheFile → Bool
  | .missing => false
  | _ => true

/-- `JSON.parse(fs.readFileSync(CACHE_FILE, 'utf-8'))`: the fallible body of
`loadCache`'s guarded branch. -/
def readAndParse : CacheFile → Except String RouteCache
  | .missing => .error "ENOENT"
  | .unreadable => .error "EACCES"
  | .invalid => .error "SyntaxError"
  | .valid store => .ok store

/-- `loadCache` of `route-cache.ts`: inside a `try`, if the file exists,
return the parsed store; any exception is caught and, like the missing-file
case, falls through to returning the empty store. The `Except` result type
records what the *caller* can observe. -/
def loadCache (file : CacheFile) : Except String RouteCache :=
  let attempt : Except String RouteCache :=
    if existsSync file then readAndParse file else .ok []
  match attempt with
  | .ok store => .ok store
  | .error _ => .ok []

/-- The writable-or-not state of the disk plus the current cache file. -/
structure Disk where
  writable : Bool
  file : CacheFile
deriving DecidableEq

/-- `fs.writeFileSync(CACHE_FILE, JSON.stringify(cache), 'utf-8')`: succeeds
and replaces the file when the disk is writable, throws otherwise. -/
def writeFileSync (disk : Disk) (cache : RouteCache) : Except String Disk :=
  if disk.writable then .ok ⟨disk.writable, .valid cache⟩
  else .error "EACCES"

/-- `saveCache` of `route-cache.ts`: write the store, silently swallowing any
write failure (the disk is then left unchanged). -/
def saveCache (disk : Disk) (cache : RouteCache) : Except String Disk :=
  match writeFileSync disk cache with
  | .ok disk' => .ok disk'
  | .error _ => .ok disk

/-! ## Rate-limit detection and backoff (`createAxiosInstance` in
`src/core/runner.ts`) -/

/-- The fixed throttling indicator substrings (`RATE_LIMIT_INDICATORS`,
`runner.ts` lines 178‑184). -/
def rateLimitIndicators : List String :=
  ["/blocked", "/rate-limit", "/too-many-requests", "rate limit exceeded",
    "too many requests"]

/-- `BASE_WAIT_TIME` (milliseconds), `runner.ts` line 187. -/
def BASE_WAIT_TIME : Nat := 3000

/-- `MAX_RATE_LIMIT_BEFORE_PROMPT`, `runner.ts` line 188. -/
def MAX_RATE_LIMIT_BEFORE_PROMPT : Nat := 5

/-- `String.prototype.includes(needle)`: substring containment. -/
def includesSubstr (hay needle : String) : Bool :=
  hay.data.tails.any (fun t => needle.data.isPrefixOf t)

/-- `String.prototype.toLowerCase()`, modelled character-wise (the indicator
alphabet is ASCII, where per-character lowercasing agrees with JavaScript). -/
def lowerString (s : String) : String := ⟨s.data.map Char.toLower⟩

/-- An intercepted response, reduced to the fields the interceptor reads:
the status code, `response.request.path` (absent models `undefined`,
short-circuited by `?.`), and `JSON.stringify(response.data)` (absent models
`undefined`, e.g. when the body is `undefined`). -/
structure InterceptedResponse where
  status : Nat
  requestPath : Option String
  dataSerialized : Option String
deriving DecidableEq, Repr

/-- The rate-limit classification of the response interceptor (`runner.ts`
lines 193‑199). -/
def isRateLimited (r : InterceptedResponse) : Bool :=
  r.status == 429 ||
    rateLimitIndicators.any (fun indicator =>
      (match r.requestPath with
        | some p => includesSubstr p indicator
        | none => false) ||
      (match r.dataSerialized with
        | some d => includesSubstr (lowerString d) indicator
        | none => false))

/-- The pause duration (milliseconds) applied before returning a response on
the given rate-limit hit count (`runner.ts` lines 208‑223 for counts up to
the threshold, lines 271‑282 beyond it). -/
def waitTime (rateLimitHits : Nat) : Nat :=
  if rateLimitHits ≤ MAX_RATE_LIMIT_BEFORE_PROMPT then
    min (BASE_WAIT_TIME * rateLimitHits) (BASE_WAIT_TIME * 3)
  else
    BASE_WAIT_TIME * 3

/-! ## Discovery wordlist (`src/core/wordlists.ts`) -/

/-- `DISCOVERY_PATHS`: the fixed ordered wordlist of candidate paths,
transcribed verbatim (it contains a few repeated entries, e.g. `/secrets`
and `/api/logs`). -/
def DISCOVERY_PATHS : List String := [
  "/",
  "/home",
  "/index.html",
  "/app",
  "/api",
  "/api/v1",
  "/api/v2",
  "/v1",
  "/v2",
  "/api-docs",
  "/docs",
  "/documentation",
  "/swagger",
  "/swagger.json",
  "/swagger.yaml",
  "/openapi.json",
  "/openapi.yaml",
  "/api/openapi.json",
  "/api/openapi.yaml",
  "/api/swagger.json",
  "/api/swagger.yaml",
  "/api/v1/swagger.json",
  "/api/docs",
  "/developers",
  "/developers/docs",
  "/graphql",
  "/api/graphql",
  "/api/v1/graphql",
  "/v1/graphql",
  "/graphiql",
  "/playground",
  "/api/graphiql",
  "/graphql-playground",
  "/auth",
  "/auth/login",
  "/auth/logout",
  "/auth/register",
  "/auth/signup",
  "/auth/forgot-password",
  "/auth/reset-password",
  "/api/auth",
  "/api/auth/login",
  "/api/auth/logout",
  "/api/auth/register",
  "/api/auth/user",
  "/api/auth/me",
  "/api/login",
  "/api/register",
  "/api/signup",
  "/api/signin",
  "/api/logout",
  "/api/session",
  "/session",
  "/account",
  "/settings/account",
  "/api/user/me",
  "/api/users/current",
  "/api/whoami",
  "/me",
  "/user",
  "/users",
  "/profile",
  "/profiles",
  "/api/user",
  "/api/users",
  "/api/profile",
  "/api/profiles",
  "/api/me",
  "/api/v1/user",
  "/api/v1/users",
  "/api/v1/me",
  "/api/account",
  "/api/accounts",
  "/api/v1/account",
  "/api/v1/accounts",
  "/user/settings",
  "/user/preferences",
  "/admin",
  "/administrator",
  "/api/admin",
  "/api/administrator",
  "/api/v1/admin",
  "/admin/dashboard",
  "/dashboard",
  "/manage",
  "/manage/users",
  "/manage/settings",
  "/control-panel",
  "/cpanel",
  "/console",
  "/console/login",
  "/admin/login",
  "/adminpanel",
  "/adminarea",
  "/backend",
  "/backend/login",
  "/health",
  "/healthz",
  "/status",
  "/info",
  "/api/health",
  "/api/healthz",
  "/api/status",
  "/api/info",
  "/actuator",
  "/actuator/health",
  "/metrics",
  "/metrics/prometheus",
  "/prometheus",
  "/prometheus/metrics",
  "/telemetry",
  "/debug",
  "/debug/vars",
  "/debug/pprof",
  "/config.json",
  "/api/config",
  "/api/settings",
  "/settings",
  "/.env",
  "/.env.example",
  "/config",
  "/.git",
  "/.git/config",
  "/secrets",
  "/credentials",
  "/.well-known/security.txt",
  "/.well-known/openid-configuration",
  "/.well-known/assetlinks.json",
  "/upload",
  "/uploads",
  "/api/upload",
  "/api/uploads",
  "/files",
  "/api/files",
  "/assets",
  "/static",
  "/public",
  "/images",
  "/avatars",
  "/download",
  "/downloads",
  "/export",
  "/import",
  "/api/posts",
  "/api/articles",
  "/api/items",
  "/api/products",
  "/api/orders",
  "/api/carts",
  "/api/notifications",
  "/api/messages",
  "/api/search",
  "/api/logs",
  "/api/comments",
  "/api/tags",
  "/api/categories",
  "/api/media",
  "/api/attachments",
  "/checkout",
  "/cart",
  "/billing",
  "/payments",
  "/payment",
  "/api/payments",
  "/api/billing",
  "/api/checkout",
  "/stripe/webhook",
  "/webhooks/stripe",
  "/paypal/ipn",
  "/subscriptions",
  "/invoice",
  "/oauth",
  "/oauth/authorize",
  "/oauth/token",
  "/oauth/callback",
  "/auth/oidc",
  "/openid",
  "/openid-configuration",
  "/.well-known/jwks.json",
  "/webhook",
  "/webhooks",
  "/api/webhooks",
  "/hooks",
  "/integrations",
  "/integrations/github",
  "/integrations/bitbucket",
  "/integrations/slack",
  "/blog",
  "/feeds",
  "/rss.xml",
  "/atom.xml",
  "/sitemap.xml",
  "/robots.txt",
  "/phpmyadmin",
  "/pma",
  "/adminer",
  "/sql",
  "/database",
  "/db",
  "/dbadmin",
  "/backup",
  "/backups",
  "/deploy",
  "/deployment",
  "/ci",
  "/jenkins",
  "/.gitlab-ci.yml",
  "/.github/workflows",
  "/dev",
  "/development",
  "/staging",
  "/demo",
  "/test",
  "/qa",
  "/sandbox",
  "/internal",
  "/internal/api",
  "/_internal",
  "/api/v1/auth/login",
  "/api/v1/login",
  "/api/v1/signup",
  "/api/v1/health",
  "/api/v1/status",
  "/api/v1/upload",
  "/v1/auth",
  "/v2/auth",
  "/.env.backup",
  "/.env.bak",
  "/.htpasswd",
  "/.htaccess",
  "/server-status",
  "/server-info",
  "/logs",
  "/api/logs",
  "/system/logs",
  "/error",
  "/errors",
  "/help",
  "/support",
  "/contact",
  "/feedback",
  "/faq",
  "/signup/complete",
  "/signup/verify",
  "/verify-email",
  "/resend-verification",
  "/subscription/cancel",
  "/export/csv",
  "/export/json",
  "/download/csv",
  "/api/admin/users",
  "/api/admin/settings",
  "/api/v1/admin/users",
  "/api/v1/admin/settings",
  "/sso",
  "/signin/oauth",
  "/callback/oauth",
  "/auth/github",
  "/auth/google",
  "/auth/facebook",
  "/search",
  "/api/search",
  "/suggest",
  "/autocomplete",
  "/suggestions",
  "/ws",
  "/socket.io",
  "/realtime",
  "/notifications",
  "/rate-limit",
  "/throttle",
  "/terms",
  "/privacy",
  "/cookies",
  "/install",
  "/setup",
  "/onboarding",
  "/initial-setup",
  "/favicon.ico",
  "/humans.txt",
  "/crossdomain.xml",
  "/.gitignore",
  "/LICENSE",
  "/README.md",
  "/api/items?page=1",
  "/api/items?page=2",
  "/ops",
  "/ops/status",
  "/ops/maintenance",
  "/sentry",
  "/sentry/health",
  "/newrelic",
  "/_next/static",
  "/__next__",
  "/next",
  "/wp-admin",
  "/wp-login.php",
  "/wp-content",
  "/wp-json",
  "/api/v3",
  "/api/v3/users",
  "/services",
  "/service",
  "/.env.local",
  "/.env.production",
  "/config.php",
  "/phpinfo.php",
  "/ping",
  "/isalive",
  "/ready",
  "/hidden",
  "/secret",
  "/secrets",
  "/private",
  "/internal-only",
  "/api/v1/orders",
  "/api/v1/products",
  "/api/v2/orders",
  "/api/v2/products",
  "/admin/tools",
  "/admin/maintenance",
  "/.well-known/security.txt",
  "/.well-known/change-password",
  "/__health__",
  "/__status__",
  "/proc",
  "/sys",
  "/api2",
  "/api3",
  "/v3",
  "/v4",
  "/admim",
  "/admn",
  "/logn",
  "/swagger-ui",
  "/swagger-ui.html",
  "/redoc"
]

/-! ## Discovery engine (`src/core/crawler.ts`, cached variant) -/

/-- What one `axios.get` probe observes about a response: the status code,
`res.data` when it is a string (`none` models a non-string body), and whether
the `content-type` header includes `text/html`. -/
structure ProbeResponse where
  status : Nat
  textData : Option String
  isHtml : Bool
deriving DecidableEq, Repr

/-- The target server as seen by the prober: for each probed path, either a
response or `none` for a network-level failure (the request throwing). -/
abbrev Server := String → Option ProbeResponse

/-- `String.prototype.split(sep)` for a single-character separator,
character-wise (the result list is always nonempty; the impossible empty
branch returns the singleton split). -/
def splitOnChar (c : Char) : List Char → List (List Char)
  | [] => [[]]
  | x :: xs =>
      match splitOnChar c xs with
      | [] => [[]]
      | h :: t => if x == c then [] :: h :: t else (x :: h) :: t

/-- `res.data.split('\n')`: the body's lines, with JavaScript's semantics
(a trailing newline yields a final empty line). -/
def splitNewlines (s : String) : List String :=
  (splitOnChar '\n' s.data).map (fun cs => ⟨cs⟩)

/-- `String.prototype.startsWith(pre)`. -/
def jsStartsWith (s pre : String) : Bool := pre.data.isPrefixOf s.data

/-- `line.match(/^(?:Allow|Disallow):\s*(\S+)/i)`, returning the captured
group: case-insensitively strip a leading `Allow:` or `Disallow:`, skip
whitespace, and take the maximal nonempty run of non-whitespace characters. -/
def robotsRulePath (line : String) : Option String :=
  let cs := line.data
  let lower := cs.map Char.toLower
  let afterKeyword : Option (List Char) :=
    if ("allow:".data).isPrefixOf lower then some (cs.drop 6)
    else if ("disallow:".data).isPrefixOf lower then some (cs.drop 9)
    else none
  match afterKeyword with
  | none => none
  | some rest =>
      let tok := (rest.dropWhile (fun c => c.isWhitespace)).takeWhile
        (fun c => !c.isWhitespace)
      if tok.isEmpty then none else some ⟨tok⟩

/-- What one probe of `discoverRoutes` contributes: the routes it pushes, in
push order, and the cache entry it records. -/
structure ProbeOutcome where
  routesAdded : List Route
  entry : CacheEntry
deriving DecidableEq, Repr

/-- The robots-exclusion parsing of an existing probe (`crawler.ts`, cached
variant, lines 500‑509): when the probed path is exactly `/robots.txt` and
the body is a string, each line whose rule pattern matches and whose captured
path starts with `/` is pushed as a `GET` route. -/
def robotsRoutesOf (path : String) (res : ProbeResponse) : List Route :=
  if path == "/robots.txt" then
    match res.textData with
    | some body =>
        (splitNewlines body).filterMap (fun line =>
          match robotsRulePath line with
          | some p => if jsStartsWith p "/" then some ⟨p, .GET⟩ else none
          | none => none)
    | none => []
  else []

/-- The anchor crawling of an existing probe (`crawler.ts`, cached variant,
lines 511‑522): when the body is an HTML string, each extracted `href` that
starts with `/`, is not in the (never written) `visited` set and is not in
the wordlist is pushed as a `GET` route. -/
def linkRoutesOf (anchorsOf : String → List String) (visited : List String)
    (res : ProbeResponse) : List Route :=
  match res.textData with
  | some body =>
      if res.isHtml then
        (anchorsOf body).filterMap (fun href =>
          if jsStartsWith href "/" && !visited.contains href then
            if !DISCOVERY_PATHS.contains href then some ⟨href, .GET⟩
            else none
          else none)
      else []
  | none => []

/-- The body of the per-path probe lambda of `discoverRoutes` (`crawler.ts`,
cached variant, lines 484‑531): probe the path; on a response, record a cache
entry with `exists = (status ≠ 404)` and, when it exists, push the path as a
`GET` route followed by the robots rules and anchor links; on a thrown
request, record the path as non-existent and push nothing. `anchorsOf`
stands for cheerio's `$('a')` href extraction. -/
def probeOne (server : Server) (anchorsOf : String → List String)
    (visited : List String) (now : String) (path : String) : ProbeOutcome :=
  match server path with
  | some res =>
      let entry : CacheEntry :=
        ⟨path, res.status != 404, some res.status, now⟩
      if res.status != 404 then
        ⟨⟨path, .GET⟩ ::
          (robotsRoutesOf path res ++ linkRoutesOf anchorsOf visited res),
          entry⟩
      else
        ⟨[], entry⟩
  | none => ⟨[], ⟨path, false, none, now⟩⟩

/-- One `Map.prototype.set` step of the final deduplication: overwrite the
binding for the key if present (keeping its position), else append. -/
def mapInsert (m : List (String × Route)) (k : String) (v : Route) :
    List (String × Route) :=
  if m.any (·.1 == k) then
    m.map (fun kv => if kv.1 == k then (k, v) else kv)
  else m ++ [(k, v)]

/-- The deduplication at the end of `discoverRoutes`: build a `Map` keyed by
path and return its values in key-insertion order. -/
def dedupRoutes (routes : List Route) : List Route :=
  (routes.foldl (fun m r => mapInsert m r.path r) []).map (·.2)

/-- The wordlist minus the paths already cached for this target
(`pathsToSearch` in `discoverRoutes`). -/
def pathsToSearch (cache : RouteCache) (baseUrl : String) : List String :=
  DISCOVERY_PATHS.filter (fun p => !(getCachedPaths cache baseUrl).contains p)

/-- The result of one discovery run: the deduplicated routes returned to the
caller and the new cache entries recorded during the run (the ones passed to
`updateCache` when nonempty). -/
structure DiscoveryResult where
  routes : List Route
  newEntries : List CacheEntry
deriving DecidableEq, Repr

/-- `discoverRoutes` of the cached crawler: seed the result with the cached
existing paths, probe every not-yet-cached wordlist path, and deduplicate.
The chunked concurrent execution is modelled in wordlist order; every claim
proved below is order-insensitive. `now` is the `lastChecked` timestamp. -/
def discoverRoutes (server : Server) (anchorsOf : String → List String)
    (cache : RouteCache) (baseUrl : String) (now : String) : DiscoveryResult :=
  let cachedExisting := getCachedExistingPaths cache baseUrl
  let seeded : List Route := cachedExisting.map (fun e => ⟨e.path, .GET⟩)
  let outcomes := (pathsToSearch cache baseUrl).map
    (probeOne server anchorsOf [] now)
  let routes := seeded ++ (outcomes.map (·.routesAdded)).flatten
  ⟨dedupRoutes routes, outcomes.map (·.entry)⟩

/-! ## Check scheduler (`runVibeTest` in `src/core/runner.ts`) -/

/-- The per-client mutable state of the factory, reduced to what the checked
claims need: instances are identified by allocation index, and each owns a
rate-limit hit counter. The curried context fields an instance closes over
are irrelevant here. -/
structure ClientInstances where
  axiosId : Nat
  apiAxiosId : Nat
deriving DecidableEq, Repr

/-- The client construction of `runVibeTest` (`runner.ts` lines 290‑293):
`createAxiosInstance(config.baseUrl)` allocates the first instance; a second
instance is allocated only when `config.apiUrl` is set, otherwise `apiAxios`
is the very same reference as `axios`. -/
def makeClientInstances (apiUrl : Option String) : ClientInstances :=
  let axiosId := 0
  let apiAxiosId := match apiUrl with
    | some _ => 1
    | none => axiosId
  ⟨axiosId, apiAxiosId⟩

/-- The per-instance `rateLimitHits` counters, as a map from instance id to
count. -/
abbrev HitCounters := Nat → Nat

/-- `rateLimitHits++` on the instance that intercepted the response. -/
def recordHit (counters : HitCounters) (instanceId : Nat) : HitCounters :=
  fun j => if j = instanceId then counters j + 1 else counters j

/-- A vulnerability check (`Check` in `types.ts`), with `run` returning
either findings or the thrown error's message. The context is abstract: the
scheduler only passes it through. -/
structure Check (Ctx : Type) where
  name : String
  run : Ctx → Except String (List Finding)

/-- One line of scheduler console output per check: success, failure
(findings reported), or the non-fatal warning of the `catch` branch. -/
inductive CheckEvent where
  | succeeded (name : String)
  | foundIssues (name : String)
  | warned (message : String)
deriving DecidableEq, Repr

/-- The warning text of the scheduler's `catch` branch (`runner.ts`
line 318). -/
def warnMessage (name message : String) : String :=
  "Check " ++ name ++ " failed to complete: " ++ message

/-- One iteration of the check loop of `runVibeTest` (`runner.ts` lines
307‑320): run the check; on success append its findings (reporting when
nonempty), on a thrown/rejected `run` emit the warning and keep the findings
collected so far. -/
def checkStep (ctx : Ctx) (acc : List Finding × List CheckEvent)
    (check : Check Ctx) : List Finding × List CheckEvent :=
  match check.run ctx with
  | .ok checkFindings =>
      if checkFindings.length > 0 then
        (acc.1 ++ checkFindings, acc.2 ++ [.foundIssues check.name])
      else
        (acc.1, acc.2 ++ [.succeeded check.name])
  | .error message =>
      (acc.1, acc.2 ++ [.warned (warnMessage check.name message)])

/-- The check loop of `runVibeTest`: fold the iteration over the ordered
check list. -/
def runChecks (ctx : Ctx) (checks : List (Check Ctx)) :
    List Finding × List CheckEvent :=
  checks.foldl (checkStep ctx) ([], [])

/-- The findings a single check contributes to the aggregate: its result on
success, nothing when its `run` rejects. -/
def checkFindingsOf (ctx : Ctx) (check : Check Ctx) : List Finding :=
  match check.run ctx with
  | .ok checkFindings => checkFindings
  | .error _ => []

/-- The single console event the scheduler emits for a check. -/
def checkEventOf (ctx : Ctx) (check : Check Ctx) : CheckEvent :=
  match check.run ctx with
  | .ok checkFindings =>
      if checkFindings.length > 0 then .foundIssues check.name
      else .succeeded check.name
  | .error message => .warned (warnMessage check.name message)

/-! ## General lemmas -/

/-- Folding the check loop from any accumulator appends one findings block
and one event per check. -/
theorem foldl_checkStep (ctx : Ctx) :
    ∀ (checks : List (Check Ctx)) (acc : List Finding × List CheckEvent),
      checks.foldl (checkStep ctx) acc =
        (acc.1 ++ (checks.map (checkFindingsOf ctx)).flatten,
          acc.2 ++ checks.map (checkEventOf ctx)) := by
  intro checks
  induction checks with
  | nil => intro acc; simp
  | cons check rest ih =>
      intro acc
      rw [List.foldl_cons, ih]
      unfold checkStep checkFindingsOf checkEventOf
      cases hrun : check.run ctx with
      | ok checkFindings =>
          by_cases hlen : checkFindings.length > 0
          · simp [hrun, hlen, List.append_assoc]
          · have hnil : checkFindings = [] := List.length_eq_zero.mp (by omega)
            simp [hrun, hlen, hnil, List.append_assoc]
      | error message => simp [hrun, List.append_assoc]

/-- Closed form of the scheduler: the aggregate findings are the in-order
concatenation of each check's contribution, and exactly one event is emitted
per check, in order. -/
theorem runChecks_eq (ctx : Ctx) (checks : List (Check Ctx)) :
    runChecks ctx checks =
      ((checks.map (checkFindingsOf ctx)).flatten,
        checks.map (checkEventOf ctx)) := by
  rw [runChecks, foldl_checkStep]
  simp

/-- `String.prototype.includes` agrees with list infix containment. -/
theorem includesSubstr_iff (hay needle : String) :
    includesSubstr hay needle = true ↔ needle.data <:+: hay.data := by
  simp only [includesSubstr, List.any_eq_true, List.mem_tails]
  constructor
  · rintro ⟨t, ht, hp⟩
    exact List.infix_iff_prefix_suffix.mpr
      ⟨t, List.isPrefixOf_iff_prefix.mp hp, ht⟩
  · intro h
    obtain ⟨t, hp, hs⟩ := List.infix_iff_prefix_suffix.mp h
    exact ⟨t, hs, List.isPrefixOf_iff_prefix.mpr hp⟩

/-! ## C1 — fault isolation in the check scheduler -/

/-- C1: for every ordered check list and every context, the aggregate finding
list is the in-order concatenation of the findings of every check whose `run`
succeeded (a rejecting check contributes nothing, and no earlier or later
findings are lost), and every rejecting check produces exactly one non-fatal
warning event that names it, while the scheduler continues. -/
theorem runChecks_isolates_failures (ctx : Ctx) (checks : List (Check Ctx)) :
    (runChecks ctx checks).1 = (checks.map (checkFindingsOf ctx)).flatten ∧
    (∀ check ∈ checks, ∀ message, check.run ctx = .error message →
      CheckEvent.warned (warnMessage check.name message) ∈
        (runChecks ctx checks).2) := by
  rw [runChecks_eq]
  refine ⟨rfl, ?_⟩
  intro check hmem message hrun
  have : checkEventOf ctx check =
      CheckEvent.warned (warnMessage check.name message) := by
    unfold checkEventOf
    rw [hrun]
  exact this ▸ List.mem_map_of_mem (checkEventOf ctx) hmem

/-- Concrete finding used by the C1 witness. -/
def c1finding (n : String) : Finding :=
  ⟨n, "check-" ++ n, none, n, "/" ++ n, .low, "", "", "", ""⟩

/-- C1 witness check A: succeeds with two findings. -/
def c1checkA : Check Unit := ⟨"A", fun _ => .ok [c1finding "a1", c1finding "a2"]⟩

/-- C1 witness check B: always rejects. -/
def c1checkB : Check Unit := ⟨"B", fun _ => .error "boom"⟩

/-- C1 witness check C: succeeds with one finding. -/
def c1checkC : Check Unit := ⟨"C", fun _ => .ok [c1finding "c1"]⟩

/-- Witness for C1: with `[A, B, C]` where B always rejects, the aggregate is
exactly A's findings followed by C's findings, and a warning naming B is
emitted. -/
theorem runChecks_isolates_failures_witness :
    (runChecks () [c1checkA, c1checkB, c1checkC]).1 =
      [c1finding "a1", c1finding "a2", c1finding "c1"] ∧
    CheckEvent.warned (warnMessage "B" "boom") ∈
      (runChecks () [c1checkA, c1checkB, c1checkC]).2 := by
  have h := runChecks_isolates_failures () [c1checkA, c1checkB, c1checkC]
  exact ⟨by rw [h.1]; rfl,
    h.2 c1checkB (List.mem_cons_of_mem _ (List.mem_cons_self _ _)) "boom" rfl⟩

/-! ## C4 — backoff monotonicity and cap -/

/-- C4: on one client instance, the pause before returning the response is
non-decreasing in the rate-limit hit count; while the count is at or below
the escalation threshold (5) it grows linearly in the hit count from the base
unit, capped at 3 times the base unit, and for every hit beyond the threshold
it stays pinned at that capped maximum. -/
theorem waitTime_monotone_capped (h : Nat) (hpos : 1 ≤ h) :
    waitTime h ≤ waitTime (h + 1) ∧
    (h ≤ MAX_RATE_LIMIT_BEFORE_PROMPT →
      waitTime h = min (BASE_WAIT_TIME * h) (3 * BASE_WAIT_TIME)) ∧
    (MAX_RATE_LIMIT_BEFORE_PROMPT < h → waitTime h = 3 * BASE_WAIT_TIME) := by
  unfold waitTime MAX_RATE_LIMIT_BEFORE_PROMPT BASE_WAIT_TIME
  simp only [Nat.min_def]
  refine ⟨?_, ?_, ?_⟩ <;> split_ifs <;> omega

/-- Witness for C4 at the threshold boundary: hit count 5. -/
theorem waitTime_monotone_capped_witness :
    waitTime 5 ≤ waitTime 6 ∧
    (5 ≤ MAX_RATE_LIMIT_BEFORE_PROMPT →
      waitTime 5 = min (BASE_WAIT_TIME * 5) (3 * BASE_WAIT_TIME)) ∧
    (MAX_RATE_LIMIT_BEFORE_PROMPT < 5 → waitTime 5 = 3 * BASE_WAIT_TIME) :=
  waitTime_monotone_capped 5 (by decide)

/-! ## C5 — rate-limit classification -/

/-- C5: a response is classified as rate-limited if and only if its status
code is 429, or its request path contains one of the fixed indicator
substrings, or the lowercased serialization of its body contains one of
them; in particular a status-200 response whose serialized body contains the
phrase "too many requests" is classified as rate-limited. -/
theorem isRateLimited_characterization :
    (∀ r : InterceptedResponse,
      isRateLimited r = true ↔
        (r.status = 429 ∨ ∃ ind ∈ rateLimitIndicators,
          (∃ p, r.requestPath = some p ∧ ind.data <:+: p.data) ∨
          (∃ d, r.dataSerialized = some d ∧
            ind.data <:+: (lowerString d).data))) ∧
    (∀ (r : InterceptedResponse) (d : String), r.dataSerialized = some d →
      "too many requests".data <:+: d.data → isRateLimited r = true) := by
  have hchar : ∀ r : InterceptedResponse,
      isRateLimited r = true ↔
        (r.status = 429 ∨ ∃ ind ∈ rateLimitIndicators,
          (∃ p, r.requestPath = some p ∧ ind.data <:+: p.data) ∨
          (∃ d, r.dataSerialized = some d ∧
            ind.data <:+: (lowerString d).data)) := by
    rintro ⟨s, pth, dat⟩
    cases pth <;> cases dat <;>
      simp [isRateLimited, List.any_eq_true, includesSubstr_iff]
  refine ⟨hchar, ?_⟩
  intro r d hd hinf
  refine (hchar r).mpr (Or.inr ⟨"too many requests", by simp [rateLimitIndicators],
    Or.inr ⟨d, hd, ?_⟩⟩)
  have hmap : ("too many requests".data.map Char.toLower) <:+:
      (d.data.map Char.toLower) := hinf.map Char.toLower
  have hfix : "too many requests".data.map Char.toLower =
      "too many requests".data := by decide
  rw [hfix] at hmap
  exact hmap

/-- Witness for C5: a status-200 response whose serialized body contains the
phrase "too many requests" is rate-limited. -/
theorem isRateLimited_characterization_witness :
    isRateLimited ⟨200, some "/api/login",
      some "error: too many requests, retry later"⟩ = true :=
  isRateLimited_characterization.2 _ "error: too many requests, retry later"
    rfl (by decide)

/-! ## C8 — cache persistence never propagates errors -/

/-- C8: `loadCache` never throws: it returns the parsed store when the file
exists and is valid, and the empty store when the file is missing, unreadable
or invalid; `saveCache` never throws: on a write failure it swallows the
error, leaving the disk unchanged. -/
theorem cache_io_never_throws :
    (∀ file : CacheFile, ∃ store, loadCache file = .ok store) ∧
    (∀ store, loadCache (.valid store) = .ok store) ∧
    (∀ file : CacheFile,
      (file = .missing ∨ file = .unreadable ∨ file = .invalid) →
        loadCache file = .ok []) ∧
    (∀ (disk : Disk) (cache : RouteCache),
      (disk.writable = true →
        saveCache disk cache = .ok ⟨true, .valid cache⟩) ∧
      (disk.writable = false → saveCache disk cache = .ok disk)) := by
  refine ⟨?_, ?_, ?_, ?_⟩
  · intro file
    cases file <;> exact ⟨_, rfl⟩
  · intro store
    rfl
  · rintro file (rfl | rfl | rfl) <;> rfl
  · rintro ⟨w, file⟩ cache
    cases w <;> simp [saveCache, writeFileSync]

/-- Witness for C8: an unparseable cache file loads as the empty store, and a
write to a read-only disk is swallowed. -/
theorem cache_io_never_throws_witness :
    loadCache .invalid = .ok [] ∧
    saveCache ⟨false, .missing⟩ [] = .ok ⟨false, .missing⟩ :=
  ⟨cache_io_never_throws.2.2.1 .invalid (Or.inr (Or.inr rfl)),
    (cache_io_never_throws.2.2.2 ⟨false, .missing⟩ []).2 rfl⟩

/-! ## C10 — apiAxios aliasing and counter sharing -/

/-- C10: with no separate API URL configured, `apiAxios` is the very same
client instance as `axios`, so a rate-limit hit recorded through `apiAxios`
increments the counter observed through `axios`; with an API URL configured,
the two instances are distinct and a hit through `apiAxios` leaves the
`axios` counter unchanged. -/
theorem apiAxios_aliasing :
    (∀ counters : HitCounters,
      (makeClientInstances none).apiAxiosId = (makeClientInstances none).axiosId ∧
      recordHit counters (makeClientInstances none).apiAxiosId
          ((makeClientInstances none).axiosId) =
        counters ((makeClientInstances none).axiosId) + 1) ∧
    (∀ (apiUrl : String) (counters : HitCounters),
      (makeClientInstances (some apiUrl)).apiAxiosId ≠
        (makeClientInstances (some apiUrl)).axiosId ∧
      recordHit counters (makeClientInstances (some apiUrl)).apiAxiosId
          ((makeClientInstances (some apiUrl)).axiosId) =
        counters ((makeClientInstances (some apiUrl)).axiosId)) := by
  constructor
  · intro counters
    exact ⟨rfl, by simp [recordHit, makeClientInstances]⟩
  · intro apiUrl counters
    refine ⟨?_, by simp [recordHit, makeClientInstances]⟩
    simp [makeClientInstances]

/-- Witness for C10: with no API URL and all counters at zero, a hit through
`apiAxios` is observed through `axios`. -/
theorem apiAxios_aliasing_witness :
    (makeClientInstances none).apiAxiosId = (makeClientInstances none).axiosId ∧
    recordHit (fun _ => 0) (makeClientInstances none).apiAxiosId
        ((makeClientInstances none).axiosId) =
      (fun _ => (0 : Nat)) ((makeClientInstances none).axiosId) + 1 :=
  apiAxios_aliasing.1 (fun _ => 0)

/-! ## C2 — cache upsert and path uniqueness -/

/-- Setting a list element to a value it already holds leaves the list
unchanged. -/
theorem set_getElem_self (l : List α) (i : Nat) (a : α)
    (h : l.get? i = some a) : l.set i a = l := by
  induction l generalizing i with
  | nil => simp at h
  | cons x t ih =>
      cases i with
      | zero => simp at h; simp [h]
      | succ j => simp only [List.get?_cons_succ] at h; simp [ih j h]

/-- When the new entry's path is already present, `findIndex` locates a
first occurrence and overwriting it does not change the path list. -/
theorem upsert_set_path (l : List CacheEntry) (n : CacheEntry)
    (h : n.path ∈ l.map (·.path)) :
    ∃ i, findIndex (fun e => e.path == n.path) l = some i ∧
      (l.set i n).map (·.path) = l.map (·.path) := by
  induction l with
  | nil => simp at h
  | cons a t ih =>
      by_cases hp : a.path = n.path
      · exact ⟨0, by simp [findIndex, hp], by simp [hp]⟩
      · have h' : n.path ∈ t.map (·.path) := by
          rcases List.mem_cons.mp h with h | h
          · exact absurd h.symm hp
          · exact h
        obtain ⟨i, hfi, hset⟩ := ih h'
        refine ⟨i + 1, ?_, ?_⟩
        · simp [findIndex, hp, hfi]
        · simp [hset]

/-- Folding the upsert loop: the path list of the result is the accumulator's
path list followed by the paths of the new entries not in the pre-computed
`existingPaths` set, provided that set is covered by the accumulator. -/
theorem foldl_upsertStep_paths (existingPaths : List String) :
    ∀ (ns acc : List CacheEntry),
      (∀ q ∈ existingPaths, q ∈ acc.map (·.path)) →
      (ns.foldl (upsertStep existingPaths) acc).map (·.path) =
        acc.map (·.path) ++
          (ns.map (·.path)).filter (fun q => !(existingPaths.contains q)) := by
  intro ns
  induction ns with
  | nil => intro acc _; simp
  | cons n t ih =>
      intro acc hcov
      rw [List.foldl_cons]
      by_cases hc : existingPaths.contains n.path = true
      · have hmem : n.path ∈ acc.map (·.path) :=
          hcov n.path (List.mem_of_elem_eq_true hc)
        obtain ⟨i, hfi, hset⟩ := upsert_set_path acc n hmem
        have hstep : upsertStep existingPaths acc n = acc.set i n := by
          unfold upsertStep
          rw [if_pos hc, hfi]
        rw [hstep, ih (acc.set i n) (fun q hq => hset ▸ hcov q hq), hset,
          List.map_cons]
        have hfn : List.filter (fun q => !existingPaths.contains q)
            (n.path :: t.map (·.path)) =
            List.filter (fun q => !existingPaths.contains q)
              (t.map (·.path)) := by
          rw [List.filter_cons]
          simp [List.mem_of_elem_eq_true hc]
        rw [hfn]
      · have hstep : upsertStep existingPaths acc n = acc ++ [n] := by
          unfold upsertStep
          rw [if_neg hc]
        have hcov' : ∀ q ∈ existingPaths, q ∈ (acc ++ [n]).map (·.path) := by
          intro q hq
          rw [List.map_append]
          exact List.mem_append_left _ (hcov q hq)
        have hfn : (!existingPaths.contains n.path) = true := by
          cases hb : existingPaths.contains n.path
          · rfl
          · exact absurd hb hc
        rw [hstep, ih (acc ++ [n]) hcov']
        conv_rhs => rw [List.map_cons, List.filter_cons, if_pos hfn]
        rw [List.map_append]
        simp [List.append_assoc]

/-- Looking up the key just assigned returns the assigned record. -/
theorem lookupKey_setKey_self (cache : RouteCache) (k : String)
    (v : TargetRecord) : lookupKey (setKey cache k v) k = some v := by
  induction cache with
  | nil => simp [setKey, lookupKey]
  | cons kv t ih =>
      obtain ⟨k', v'⟩ := kv
      by_cases h : k' == k
      · simp [setKey, lookupKey, h]
      · simp only [setKey, lookupKey, h]
        simpa [h] using ih

/-- `updateCache` stores, for the target's hash, exactly the merge of the
previously stored entries with the new ones. -/
theorem entriesFor_updateCache (cache : RouteCache) (baseUrl : String)
    (newEntries : List CacheEntry) :
    entriesFor (updateCache cache baseUrl newEntries) (hashBaseUrl baseUrl) =
      updateEntries (entriesFor cache (hashBaseUrl baseUrl)) newEntries := by
  unfold updateCache entriesFor
  rw [lookupKey_setKey_self]
  cases hl : lookupKey cache (hashBaseUrl baseUrl) <;> simp [hl]

/-- C2 (amended): provided the paths of `newEntries` are pairwise distinct,
`updateCache` preserves path uniqueness for the target: a new entry whose
path is already stored replaces the stored entry in place (the stored path
list is unchanged), a new path is appended once, and the stored entries list
never contains two entries with the same path. -/
theorem updateCache_upsert_nodup (cache : RouteCache) (baseUrl : String)
    (newEntries : List CacheEntry)
    (hstored : ((entriesFor cache (hashBaseUrl baseUrl)).map (·.path)).Nodup)
    (hnew : (newEntries.map (·.path)).Nodup) :
    ((entriesFor (updateCache cache baseUrl newEntries)
        (hashBaseUrl baseUrl)).map (·.path)).Nodup ∧
    (entriesFor (updateCache cache baseUrl newEntries)
        (hashBaseUrl baseUrl)).map (·.path) =
      (entriesFor cache (hashBaseUrl baseUrl)).map (·.path) ++
        (newEntries.map (·.path)).filter
          (fun q =>
            !(((entriesFor cache (hashBaseUrl baseUrl)).map
              (·.path)).contains q)) := by
  rw [entriesFor_updateCache]
  have hpaths := foldl_upsertStep_paths
    ((entriesFor cache (hashBaseUrl baseUrl)).map (·.path)) newEntries
    (entriesFor cache (hashBaseUrl baseUrl)) (fun q hq => hq)
  have hun : updateEntries (entriesFor cache (hashBaseUrl baseUrl)) newEntries =
      newEntries.foldl
        (upsertStep ((entriesFor cache (hashBaseUrl baseUrl)).map (·.path)))
        (entriesFor cache (hashBaseUrl baseUrl)) := rfl
  rw [hun, hpaths]
  refine ⟨List.Nodup.append hstored (hnew.filter _) ?_, rfl⟩
  intro q hq hq'
  have hnc := (List.mem_filter.mp hq').2
  have hcq : ((entriesFor cache (hashBaseUrl baseUrl)).map
      (·.path)).contains q = true := List.elem_eq_true_of_mem hq
  rw [hcq] at hnc
  exact absurd hnc (by decide)

/-- The concrete cache entry of the C2 counterexample and witness inputs. -/
def c2entry : CacheEntry := ⟨"/a", true, some 200, "2024-01-01T00:00:00Z"⟩

/-- C2 counterexample: when `newEntries` itself contains two entries with the
same path (as the wordlist's repeated entries produce on a cold cache), both
are appended and the stored entries list holds the path twice — the claimed
uniqueness invariant fails. -/
theorem updateCache_duplicate_counterexample :
    ¬ (((entriesFor
        (updateCache [] "http://localhost:3000" [c2entry, c2entry])
        (hashBaseUrl "http://localhost:3000")).map (·.path)).Nodup) := by
  decide

/-- Witness for the amended C2: a store holding `/a` updated with a fresh
`/a` entry and a new `/b` entry keeps unique paths, replacing `/a` in
place. -/
theorem updateCache_upsert_nodup_witness :
    ((entriesFor
        (updateCache [("http://localhost:3000",
          ⟨"http://localhost:3000", [c2entry]⟩)] "http://localhost:3000"
          [⟨"/a", false, some 404, "t2"⟩, ⟨"/b", true, some 200, "t2"⟩])
        (hashBaseUrl "http://localhost:3000")).map (·.path)).Nodup ∧
    (entriesFor
        (updateCache [("http://localhost:3000",
          ⟨"http://localhost:3000", [c2entry]⟩)] "http://localhost:3000"
          [⟨"/a", false, some 404, "t2"⟩, ⟨"/b", true, some 200, "t2"⟩])
        (hashBaseUrl "http://localhost:3000")).map (·.path) =
      (entriesFor [("http://localhost:3000",
          ⟨"http://localhost:3000", [c2entry]⟩)]
        (hashBaseUrl "http://localhost:3000")).map (·.path) ++
        (([⟨"/a", false, some 404, "t2"⟩,
            ⟨"/b", true, some 200, "t2"⟩] : List CacheEntry).map
          (·.path)).filter
          (fun q =>
            !(((entriesFor [("http://localhost:3000",
                ⟨"http://localhost:3000", [c2entry]⟩)]
              (hashBaseUrl "http://localhost:3000")).map
                (·.path)).contains q)) :=
  updateCache_upsert_nodup
    [("http://localhost:3000", ⟨"http://localhost:3000", [c2entry]⟩)]
    "http://localhost:3000"
    [⟨"/a", false, some 404, "t2"⟩, ⟨"/b", true, some 200, "t2"⟩]
    (by decide) (by decide)

/-! ## Discovery engine lemmas -/

/-- Unfolding: the new cache entries are the probe entries, in wordlist
order. -/
theorem discoverRoutes_newEntries (server : Server)
    (anchorsOf : String → List String) (cache : RouteCache) (u now : String) :
    (discoverRoutes server anchorsOf cache u now).newEntries =
      ((pathsToSearch cache u).map (probeOne server anchorsOf [] now)).map
        (·.entry) := rfl

/-- Unfolding: the returned routes are the deduplication of the cached
existing seeds followed by every probe's contributions. -/
theorem discoverRoutes_routes (server : Server)
    (anchorsOf : String → List String) (cache : RouteCache) (u now : String) :
    (discoverRoutes server anchorsOf cache u now).routes =
      dedupRoutes
        ((getCachedExistingPaths cache u).map (fun e => ⟨e.path, .GET⟩) ++
          (((pathsToSearch cache u).map
            (probeOne server anchorsOf [] now)).map (·.routesAdded)).flatten)
    := rfl

/-- A probe records an entry for exactly the path it probed. -/
theorem probeOne_entry_path (server : Server)
    (anchorsOf : String → List String) (visited : List String)
    (now path : String) :
    (probeOne server anchorsOf visited now path).entry.path = path := by
  unfold probeOne
  cases server path with
  | none => rfl
  | some res =>
      simp only
      split <;> rfl

/-- On a response, the recorded entry is the probed path with
`exists = (status ≠ 404)` and the observed status. -/
theorem probeOne_entry_of_some (server : Server)
    (anchorsOf : String → List String) (visited : List String)
    (now path : String) (res : ProbeResponse) (hsp : server path = some res) :
    (probeOne server anchorsOf visited now path).entry =
      ⟨path, res.status != 404, some res.status, now⟩ := by
  unfold probeOne
  rw [hsp]
  simp only
  split <;> rfl

/-- On a network-level failure, the probe records the path as non-existent
with no status, and pushes no route. -/
theorem probeOne_of_none (server : Server)
    (anchorsOf : String → List String) (visited : List String)
    (now path : String) (hsp : server path = none) :
    probeOne server anchorsOf visited now path =
      ⟨[], ⟨path, false, none, now⟩⟩ := by
  unfold probeOne
  rw [hsp]

/-- On an existing response, the probe pushes the path itself first, then the
robots rules, then the anchor links. -/
theorem probeOne_routesAdded_of_some (server : Server)
    (anchorsOf : String → List String) (visited : List String)
    (now path : String) (res : ProbeResponse) (hsp : server path = some res)
    (h4 : (res.status != 404) = true) :
    (probeOne server anchorsOf visited now path).routesAdded =
      ⟨path, .GET⟩ ::
        (robotsRoutesOf path res ++ linkRoutesOf anchorsOf visited res) := by
  unfold probeOne
  rw [hsp]
  simp only [h4]
  rfl

/-- On a 404 response, the probe pushes no route. -/
theorem probeOne_routesAdded_of_404 (server : Server)
    (anchorsOf : String → List String) (visited : List String)
    (now path : String) (res : ProbeResponse) (hsp : server path = some res)
    (h4 : (res.status != 404) = false) :
    (probeOne server anchorsOf visited now path).routesAdded = [] := by
  unfold probeOne
  rw [hsp]
  simp only [h4]
  rfl

/-- Every robots-derived route is a `GET` route. -/
theorem robotsRoutesOf_GET (path : String) (res : ProbeResponse) :
    ∀ r ∈ robotsRoutesOf path res, r.method = .GET := by
  intro r hr
  unfold robotsRoutesOf at hr
  by_cases hp : (path == "/robots.txt") = true
  · rw [if_pos hp] at hr
    cases htd : res.textData with
    | none => rw [htd] at hr; simp at hr
    | some body =>
        rw [htd] at hr
        dsimp only at hr
        obtain ⟨line, _, heq⟩ := List.mem_filterMap.mp hr
        cases hrp : robotsRulePath line with
        | none => rw [hrp] at heq; exact absurd heq (by simp)
        | some p =>
            rw [hrp] at heq
            dsimp only at heq
            by_cases hs : jsStartsWith p "/" = true
            · rw [if_pos hs] at heq
              have h := Option.some.inj heq
              rw [← h]
            · rw [if_neg hs] at heq
              exact absurd heq (by simp)
  · rw [if_neg hp] at hr
    simp at hr

/-- Every anchor-derived route is a `GET` route. -/
theorem linkRoutesOf_GET (anchorsOf : String → List String)
    (visited : List String) (res : ProbeResponse) :
    ∀ r ∈ linkRoutesOf anchorsOf visited res, r.method = .GET := by
  intro r hr
  unfold linkRoutesOf at hr
  cases htd : res.textData with
  | none => rw [htd] at hr; simp at hr
  | some body =>
      rw [htd] at hr
      dsimp only at hr
      by_cases hhtml : res.isHtml = true
      · rw [if_pos hhtml] at hr
        obtain ⟨href, _, heq⟩ := List.mem_filterMap.mp hr
        by_cases h1 : (jsStartsWith href "/" && !visited.contains href) = true
        · rw [if_pos h1] at heq
          by_cases h2 : (!DISCOVERY_PATHS.contains href) = true
          · rw [if_pos h2] at heq
            have h := Option.some.inj heq
            rw [← h]
          · rw [if_neg h2] at heq
            exact absurd heq (by simp)
        · rw [if_neg h1] at heq
          exact absurd heq (by simp)
      · rw [if_neg hhtml] at hr
        simp at hr

/-- Every route a probe pushes is a `GET` route. -/
theorem probeOne_routesAdded_GET (server : Server)
    (anchorsOf : String → List String) (visited : List String)
    (now path : String) :
    ∀ r ∈ (probeOne server anchorsOf visited now path).routesAdded,
      r.method = .GET := by
  intro r hr
  cases hsp : server path with
  | none => rw [probeOne_of_none server anchorsOf visited now path hsp] at hr
            simp at hr
  | some res =>
      cases h4 : (res.status != 404) with
      | false =>
          rw [probeOne_routesAdded_of_404 server anchorsOf visited now path
            res hsp h4] at hr
          simp at hr
      | true =>
          rw [probeOne_routesAdded_of_some server anchorsOf visited now path
            res hsp h4] at hr
          rcases List.mem_cons.mp hr with rfl | hr
          · rfl
          · rcases List.mem_append.mp hr with hr | hr
            · exact robotsRoutesOf_GET path res r hr
            · exact linkRoutesOf_GET anchorsOf visited res r hr

/-- Inserting a binding keyed by its own path makes it a member of the map
(either by overwriting every binding with that key or by appending). -/
theorem mapInsert_mem_self (m : List (String × Route)) (r : Route) :
    (r.path, r) ∈ mapInsert m r.path r := by
  unfold mapInsert
  by_cases h : m.any (·.1 == r.path) = true
  · rw [if_pos h]
    obtain ⟨kv, hkv, hbeq⟩ := List.any_eq_true.mp h
    have himg : (fun kv : String × Route =>
        if kv.1 == r.path then (r.path, r) else kv) kv = (r.path, r) := by
      dsimp only
      rw [if_pos hbeq]
    exact List.mem_map.mpr ⟨kv, hkv, himg⟩
  · rw [if_neg h]
    exact List.mem_append_right _ (List.mem_singleton.mpr rfl)

/-- A binding under a different key survives an insertion. -/
theorem mapInsert_mem_preserve (m : List (String × Route)) (p : String)
    (r : Route) (k : String) (v : Route) (hm : (p, r) ∈ m) (hne : p ≠ k) :
    (p, r) ∈ mapInsert m k v := by
  unfold mapInsert
  by_cases h : m.any (·.1 == k) = true
  · rw [if_pos h]
    have hpk : ¬((p == k) = true) := fun hc => hne (by simpa using hc)
    have himg : (fun kv : String × Route =>
        if kv.1 == k then (k, v) else kv) (p, r) = (p, r) := by
      dsimp only
      rw [if_neg hpk]
    exact List.mem_map.mpr ⟨(p, r), hm, himg⟩
  · rw [if_neg h]
    exact List.mem_append_left _ hm

/-- Folding `Map.set` over routes whose paths collide with `r` only at `r`
itself keeps (or establishes) the binding `(r.path, r)`. -/
theorem foldl_mapInsert_mem (r : Route) :
    ∀ (rest : List Route) (m : List (String × Route)),
      (∀ r' ∈ rest, r'.path = r.path → r' = r) →
      ((r.path, r) ∈ m ∨ r ∈ rest) →
      (r.path, r) ∈ rest.foldl (fun m r' => mapInsert m r'.path r') m := by
  intro rest
  induction rest with
  | nil =>
      intro m _ h
      rcases h with h | h
      · exact h
      · simp at h
  | cons r' t ih =>
      intro m huniq h
      rw [List.foldl_cons]
      apply ih _ (fun x hx hpx => huniq x (List.mem_cons_of_mem _ hx) hpx)
      rcases h with hm | hmem
      · left
        by_cases hp : r'.path = r.path
        · have he : r' = r := huniq r' (List.mem_cons_self _ _) hp
          rw [he]
          exact mapInsert_mem_self m r
        · exact mapInsert_mem_preserve m r.path r r'.path r' hm
            (fun e => hp e.symm)
      · rcases List.mem_cons.mp hmem with heq | ht
        · left
          rw [← heq]
          exact mapInsert_mem_self m r
        · right
          exact ht

/-- A route whose path identifies it uniquely in the list survives the final
`Map`-based deduplication. -/
theorem dedupRoutes_mem (rs : List Route) (r : Route) (hr : r ∈ rs)
    (huniq : ∀ r' ∈ rs, r'.path = r.path → r' = r) : r ∈ dedupRoutes rs := by
  unfold dedupRoutes
  exact List.mem_map_of_mem (·.2)
    (foldl_mapInsert_mem r rs [] huniq (Or.inr hr))

/-- Every route in the pre-deduplication list of a discovery run is a `GET`
route. -/
theorem preRoutes_GET (server : Server) (anchorsOf : String → List String)
    (cache : RouteCache) (u now : String) :
    ∀ r ∈ (getCachedExistingPaths cache u).map
        (fun e => (⟨e.path, .GET⟩ : Route)) ++
        (((pathsToSearch cache u).map
          (probeOne server anchorsOf [] now)).map (·.routesAdded)).flatten,
      r.method = .GET := by
  intro r hr
  rcases List.mem_append.mp hr with hr | hr
  · obtain ⟨e, _, he⟩ := List.mem_map.mp hr
    rw [← he]
  · obtain ⟨l, hl, hrl⟩ := List.mem_flatten.mp hr
    obtain ⟨o, ho, hol⟩ := List.mem_map.mp hl
    obtain ⟨p, _, hpo⟩ := List.mem_map.mp ho
    subst hpo
    rw [← hol] at hrl
    exact probeOne_routesAdded_GET server anchorsOf [] now p r hrl

/-- Any route contributed by the probe of a searched path appears in the
returned route set. -/
theorem mem_routes_of_probe (server : Server)
    (anchorsOf : String → List String) (cache : RouteCache) (u now p : String)
    (hp : p ∈ pathsToSearch cache u) (r : Route)
    (hr : r ∈ (probeOne server anchorsOf [] now p).routesAdded) :
    r ∈ (discoverRoutes server anchorsOf cache u now).routes := by
  rw [discoverRoutes_routes]
  have hpre : r ∈ (getCachedExistingPaths cache u).map
      (fun e => (⟨e.path, .GET⟩ : Route)) ++
      (((pathsToSearch cache u).map
        (probeOne server anchorsOf [] now)).map (·.routesAdded)).flatten := by
    refine List.mem_append_right _ (List.mem_flatten.mpr
      ⟨(probeOne server anchorsOf [] now p).routesAdded, ?_, hr⟩)
    exact List.mem_map_of_mem _ (List.mem_map_of_mem _ hp)
  refine dedupRoutes_mem _ r hpre ?_
  intro r' hr' hpath
  have h1 := preRoutes_GET server anchorsOf cache u now r' hr'
  have h2 := probeOne_routesAdded_GET server anchorsOf [] now p r hr
  obtain ⟨p1, m1⟩ := r'
  obtain ⟨p2, m2⟩ := r
  simp only at hpath h1 h2
  rw [hpath, h1, h2]

/-- The paths recorded by a run's new cache entries are exactly the searched
wordlist paths, in order. -/
theorem discoverRoutes_newEntries_paths (server : Server)
    (anchorsOf : String → List String) (cache : RouteCache) (u now : String) :
    (discoverRoutes server anchorsOf cache u now).newEntries.map (·.path) =
      pathsToSearch cache u := by
  rw [discoverRoutes_newEntries, List.map_map, List.map_map]
  conv_rhs => rw [← List.map_id (pathsToSearch cache u)]
  refine List.map_congr_left ?_
  intro p _
  exact probeOne_entry_path server anchorsOf [] now p

/-! ## C9 — only probed wordlist paths are cached -/

/-- C9: the new cache entries of a discovery run record exactly the wordlist
paths probed in that run (the wordlist minus the already-cached paths), in
order; routes contributed by robots.txt parsing or HTML anchor extraction are
never written to the cache. -/
theorem newEntries_paths_frame (server : Server)
    (anchorsOf : String → List String) (cache : RouteCache) (u now : String) :
    (discoverRoutes server anchorsOf cache u now).newEntries.map (·.path) =
      pathsToSearch cache u ∧
    pathsToSearch cache u =
      DISCOVERY_PATHS.filter
        (fun p => !(getCachedPaths cache u).contains p) :=
  ⟨discoverRoutes_newEntries_paths server anchorsOf cache u now, rfl⟩

/-! ## C6 — probe outcome recording -/

/-- C6: for a probed wordlist path, a 404 response is recorded as
non-existent; any other status is recorded as existing and the path is added
to the result as a `GET` route; a network-level failure is recorded as
non-existent without surfacing an error, and every probed path still
receives a cache entry (the batch is never aborted). -/
theorem probe_outcome_recording (server : Server)
    (anchorsOf : String → List String) (cache : RouteCache) (u now p : String)
    (hp : p ∈ pathsToSearch cache u) :
    (∀ res, server p = some res → res.status = 404 →
      (⟨p, false, some res.status, now⟩ : CacheEntry) ∈
        (discoverRoutes server anchorsOf cache u now).newEntries) ∧
    (∀ res, server p = some res → res.status ≠ 404 →
      (⟨p, true, some res.status, now⟩ : CacheEntry) ∈
        (discoverRoutes server anchorsOf cache u now).newEntries ∧
      (⟨p, .GET⟩ : Route) ∈
        (discoverRoutes server anchorsOf cache u now).routes) ∧
    (server p = none →
      (⟨p, false, none, now⟩ : CacheEntry) ∈
        (discoverRoutes server anchorsOf cache u now).newEntries) ∧
    (∀ q ∈ pathsToSearch cache u, ∃ e ∈
      (discoverRoutes server anchorsOf cache u now).newEntries, e.path = q) := by
  have hentry : ∀ p' ∈ pathsToSearch cache u,
      (probeOne server anchorsOf [] now p').entry ∈
        (discoverRoutes server anchorsOf cache u now).newEntries := by
    intro p' hp'
    rw [discoverRoutes_newEntries]
    exact List.mem_map_of_mem _ (List.mem_map_of_mem _ hp')
  refine ⟨?_, ?_, ?_, ?_⟩
  · intro res hsp h404
    have h := hentry p hp
    rw [probeOne_entry_of_some server anchorsOf [] now p res hsp] at h
    have h4 : (res.status != 404) = false := by simp [h404]
    rw [h4] at h
    exact h
  · intro res hsp h404
    have h4 : (res.status != 404) = true := by simp [h404]
    constructor
    · have h := hentry p hp
      rw [probeOne_entry_of_some server anchorsOf [] now p res hsp, h4] at h
      exact h
    · refine mem_routes_of_probe server anchorsOf cache u now p hp _ ?_
      rw [probeOne_routesAdded_of_some server anchorsOf [] now p res hsp h4]
      exact List.mem_cons_self _ _
  · intro hsp
    have h := hentry p hp
    rw [probeOne_of_none server anchorsOf [] now p hsp] at h
    exact h
  · intro q hq
    refine ⟨(probeOne server anchorsOf [] now q).entry, hentry q hq, ?_⟩
    exact probeOne_entry_path server anchorsOf [] now q

/-! ## C7 — robots.txt rules become routes -/

/-- A matching robots rule line of an existing `/robots.txt` response whose
captured path starts with `/` contributes that path as a `GET` route. -/
theorem mem_robotsRoutesOf (res : ProbeResponse) (body line t : String)
    (hbody : res.textData = some body) (hline : line ∈ splitNewlines body)
    (ht : robotsRulePath line = some t)
    (hslash : jsStartsWith t "/" = true) :
    (⟨t, .GET⟩ : Route) ∈ robotsRoutesOf "/robots.txt" res := by
  unfold robotsRoutesOf
  rw [if_pos (by rfl), hbody]
  dsimp only
  refine List.mem_filterMap.mpr ⟨line, hline, ?_⟩
  rw [ht]
  dsimp only
  rw [if_pos hslash]

/-- C7: if `/robots.txt` is among the probed wordlist paths, its probe
returns a non-404 string body, and some line of that body matches the
`Allow`/`Disallow` rule pattern (case-insensitively) with a captured path
starting with `/`, then that path appears in the discovery result as a `GET`
route — it is never itself probed (no assumption about the server at that
path is made). -/
theorem robots_rule_adds_route (server : Server)
    (anchorsOf : String → List String) (cache : RouteCache) (u now : String)
    (hp : "/robots.txt" ∈ pathsToSearch cache u) (res : ProbeResponse)
    (hres : server "/robots.txt" = some res) (h404 : res.status ≠ 404)
    (body : String) (hbody : res.textData = some body) (line : String)
    (hline : line ∈ splitNewlines body) (t : String)
    (ht : robotsRulePath line = some t)
    (hslash : jsStartsWith t "/" = true) :
    (⟨t, .GET⟩ : Route) ∈ (discoverRoutes server anchorsOf cache u now).routes
    := by
  have h4 : (res.status != 404) = true := by simp [h404]
  refine mem_routes_of_probe server anchorsOf cache u now "/robots.txt" hp _
    ?_
  rw [probeOne_routesAdded_of_some server anchorsOf [] now "/robots.txt" res
    hres h4]
  exact List.mem_cons_of_mem _ (List.mem_append_left _
    (mem_robotsRoutesOf res body line t hbody hline ht hslash))

/-! ## Warm-cache lemmas -/

/-- With an empty store, nothing is cached and the whole wordlist is
searched. -/
theorem pathsToSearch_empty_cache (u : String) :
    pathsToSearch [] u = DISCOVERY_PATHS := by
  have h : getCachedPaths [] u = [] := rfl
  rw [pathsToSearch, h]
  simp

/-- Merging into an empty entries list appends every new entry (the
pre-computed `existingPaths` set is empty). -/
theorem foldl_upsertStep_nil :
    ∀ (ns acc : List CacheEntry),
      ns.foldl (upsertStep []) acc = acc ++ ns := by
  intro ns
  induction ns with
  | nil => intro acc; simp
  | cons n t ih =>
      intro acc
      rw [List.foldl_cons]
      have hstep : upsertStep [] acc n = acc ++ [n] := by
        unfold upsertStep
        rw [if_neg (by simp)]
      rw [hstep, ih]
      simp

/-- Merging new entries into an absent record stores them verbatim. -/
theorem updateEntries_nil (ns : List CacheEntry) : updateEntries [] ns = ns :=
  foldl_upsertStep_nil ns []

/-- After updating an empty store, the cached paths for the target are the
new entries' paths. -/
theorem getCachedPaths_updateCache_nil (u : String) (ns : List CacheEntry) :
    getCachedPaths (updateCache [] u ns) u = ns.map (·.path) := by
  have h : updateCache [] u ns =
      [(hashBaseUrl u, ⟨u, updateEntries [] ns⟩)] := rfl
  rw [getCachedPaths, h]
  simp [lookupKey, updateEntries_nil]

/-- After updating an empty store, the cached existing entries for the target
are the new entries recorded as existing. -/
theorem getCachedExistingPaths_updateCache_nil (u : String)
    (ns : List CacheEntry) :
    getCachedExistingPaths (updateCache [] u ns) u =
      ns.filter (·.«exists») := by
  have h : updateCache [] u ns =
      [(hashBaseUrl u, ⟨u, updateEntries [] ns⟩)] := rfl
  rw [getCachedExistingPaths, h]
  simp [lookupKey, updateEntries_nil]

/-- When every wordlist path is already cached, nothing is left to search. -/
theorem pathsToSearch_nil_of_covered (cache : RouteCache) (u : String)
    (hcov : ∀ p ∈ DISCOVERY_PATHS, (getCachedPaths cache u).contains p = true) :
    pathsToSearch cache u = [] := by
  rw [pathsToSearch]
  refine List.filter_eq_nil_iff.mpr ?_
  intro p hp
  rw [hcov p hp]
  decide

/-- With nothing to search, a discovery run degenerates to the deduplicated
cache seeds: it consults the server for nothing and records no entry. -/
theorem discoverRoutes_of_no_paths (server : Server)
    (anchorsOf : String → List String) (cache : RouteCache) (u now : String)
    (h : pathsToSearch cache u = []) :
    discoverRoutes server anchorsOf cache u now =
      ⟨dedupRoutes ((getCachedExistingPaths cache u).map
        (fun e => ⟨e.path, .GET⟩)), []⟩ := by
  unfold discoverRoutes
  rw [h]
  simp

/-- The C6 witness server: `/health` exists, `/metrics` fails at the network
level, everything else is 404. -/
def c6server : Server := fun p =>
  if p == "/health" then some ⟨200, none, false⟩
  else if p == "/metrics" then none
  else some ⟨404, none, false⟩

/-- Witness for C6: on a cold cache, `/health` (200) is cached as existing
and returned as a `GET` route, `/admin` (404) is cached as non-existent, and
`/metrics` (network failure) is cached as non-existent with no status. -/
theorem probe_outcome_recording_witness :
    (⟨"/health", true, some 200, "t0"⟩ : CacheEntry) ∈
      (discoverRoutes c6server (fun _ => []) [] "http://site"
        "t0").newEntries ∧
    (⟨"/health", .GET⟩ : Route) ∈
      (discoverRoutes c6server (fun _ => []) [] "http://site" "t0").routes ∧
    (⟨"/admin", false, some 404, "t0"⟩ : CacheEntry) ∈
      (discoverRoutes c6server (fun _ => []) [] "http://site"
        "t0").newEntries ∧
    (⟨"/metrics", false, none, "t0"⟩ : CacheEntry) ∈
      (discoverRoutes c6server (fun _ => []) [] "http://site"
        "t0").newEntries := by
  have hh := probe_outcome_recording c6server (fun _ => []) [] "http://site"
    "t0" "/health" (by rw [pathsToSearch_empty_cache]; decide)
  have ha := probe_outcome_recording c6server (fun _ => []) [] "http://site"
    "t0" "/admin" (by rw [pathsToSearch_empty_cache]; decide)
  have hm := probe_outcome_recording c6server (fun _ => []) [] "http://site"
    "t0" "/metrics" (by rw [pathsToSearch_empty_cache]; decide)
  exact ⟨(hh.2.1 ⟨200, none, false⟩ rfl (by decide)).1,
    (hh.2.1 ⟨200, none, false⟩ rfl (by decide)).2,
    ha.1 ⟨404, none, false⟩ rfl rfl,
    hm.2.2.1 rfl⟩

/-- The C7 witness server: `/robots.txt` exists with body
`Disallow: /secret\n`, everything else is 404. -/
def c7server : Server := fun p =>
  if p == "/robots.txt" then some ⟨200, some "Disallow: /secret\n", false⟩
  else some ⟨404, none, false⟩

/-- Witness for C7: the body `Disallow: /secret\n` yields a `GET /secret`
route even though `/secret` was never probed as existing. -/
theorem robots_rule_adds_route_witness :
    (⟨"/secret", .GET⟩ : Route) ∈
      (discoverRoutes c7server (fun _ => []) [] "http://site" "t0").routes :=
  robots_rule_adds_route c7server (fun _ => []) [] "http://site" "t0"
    (by rw [pathsToSearch_empty_cache]; decide)
    ⟨200, some "Disallow: /secret\n", false⟩ rfl (by decide)
    "Disallow: /secret\n" rfl "Disallow: /secret" (by decide)
    "/secret" (by decide) (by decide)

/-! ## C3 — warm-cache idempotence -/

/-- C3 (amended): against a target whose cache already records every wordlist
path, a discovery run issues zero probes — its result does not depend on the
server or on the anchor extractor at all and it records no new cache entry —
and it returns the deduplicated route set seeded from the cached existing
paths. (The route set of a *first* run is not reproduced in general: routes
contributed by robots.txt parsing or HTML anchors are not cached, see the
counterexample.) -/
theorem discoverRoutes_warm_cache_no_probes (server server' : Server)
    (anchorsOf anchorsOf' : String → List String) (cache : RouteCache)
    (u now now' : String)
    (hwarm : ∀ p ∈ DISCOVERY_PATHS,
      (getCachedPaths cache u).contains p = true) :
    discoverRoutes server anchorsOf cache u now =
      discoverRoutes server' anchorsOf' cache u now' ∧
    (discoverRoutes server anchorsOf cache u now).newEntries = [] ∧
    (discoverRoutes server anchorsOf cache u now).routes =
      dedupRoutes ((getCachedExistingPaths cache u).map
        (fun e => ⟨e.path, .GET⟩)) := by
  have h := pathsToSearch_nil_of_covered cache u hwarm
  rw [discoverRoutes_of_no_paths server anchorsOf cache u now h,
    discoverRoutes_of_no_paths server' anchorsOf' cache u now' h]
  exact ⟨rfl, rfl, rfl⟩

/-- A store whose record for the target caches the whole wordlist as
non-existent; input of the C3 witness. -/
def c3wcache : RouteCache :=
  [(hashBaseUrl "http://site",
    ⟨"http://site", DISCOVERY_PATHS.map (fun p => ⟨p, false, some 404, "t0"⟩)⟩)]

/-- A server answering 200 everywhere; input of the C3 witness. -/
def c3wserverA : Server := fun _ => some ⟨200, none, false⟩

/-- A server failing everywhere; input of the C3 witness. -/
def c3wserverB : Server := fun _ => none

/-- Witness for the amended C3: with the whole wordlist cached, two runs
against entirely different servers coincide and record nothing. -/
theorem discoverRoutes_warm_cache_no_probes_witness :
    discoverRoutes c3wserverA (fun _ => []) c3wcache "http://site" "t1" =
      discoverRoutes c3wserverB (fun _ => ["/x"]) c3wcache "http://site" "t2" ∧
    (discoverRoutes c3wserverA (fun _ => []) c3wcache "http://site"
      "t1").newEntries = [] ∧
    (discoverRoutes c3wserverA (fun _ => []) c3wcache "http://site"
      "t1").routes =
      dedupRoutes ((getCachedExistingPaths c3wcache "http://site").map
        (fun e => ⟨e.path, .GET⟩)) := by
  refine discoverRoutes_warm_cache_no_probes c3wserverA c3wserverB
    (fun _ => []) (fun _ => ["/x"]) c3wcache "http://site" "t1" "t2" ?_
  have hgc : getCachedPaths c3wcache "http://site" = DISCOVERY_PATHS := by
    rw [getCachedPaths]
    simp only [c3wcache, lookupKey, beq_self_eq_true, if_pos, List.map_map]
    rw [show ((fun x : CacheEntry => x.path) ∘
      fun p => (⟨p, false, some 404, "t0"⟩ : CacheEntry)) = id from rfl,
      List.map_id]
  intro p hp
  rw [hgc]
  exact List.elem_eq_true_of_mem hp

/-- The base URL of the C3 counterexample target. -/
def c3baseUrl : String := "http://localhost:3000"

/-- The C3 counterexample server: `/robots.txt` exists and declares a
disallowed path that is not in the wordlist; everything else is 404. -/
def c3server : Server := fun p =>
  if p == "/robots.txt" then
    some ⟨200, some "Disallow: /hidden-admin\n", false⟩
  else some ⟨404, none, false⟩

/-- The C3 counterexample anchor extractor (no HTML anchors anywhere). -/
def c3anchors : String → List String := fun _ => []

/-- First discovery run of the C3 counterexample, against an empty cache. -/
def c3run1 : DiscoveryResult := discoverRoutes c3server c3anchors [] c3baseUrl "t1"

/-- The cache persisted by the first run. -/
def c3cache : RouteCache := updateCache [] c3baseUrl c3run1.newEntries

/-- Second discovery run of the C3 counterexample, against the unchanged
target with the warm cache. -/
def c3run2 : DiscoveryResult :=
  discoverRoutes c3server c3anchors c3cache c3baseUrl "t2"

set_option maxRecDepth 10000 in
set_option maxHeartbeats 1000000 in
/-- C3 counterexample: the second run against the unchanged target issues
zero new probes (it records no entry), yet its route set differs from the
first run's — the robots-derived route `/hidden-admin` of run one is gone,
because robots-derived routes are never cached. -/
theorem discoverRoutes_second_run_differs :
    "/hidden-admin" ∈ c3run1.routes.map (·.path) ∧
    c3run2.newEntries = [] ∧
    "/hidden-admin" ∉ c3run2.routes.map (·.path) := by
  have hp : "/robots.txt" ∈ pathsToSearch [] c3baseUrl := by
    rw [pathsToSearch_empty_cache]
    decide
  have hres : c3server "/robots.txt" =
      some ⟨200, some "Disallow: /hidden-admin\n", false⟩ := rfl
  have hr1 : (⟨"/hidden-admin", .GET⟩ : Route) ∈
      (discoverRoutes c3server c3anchors [] c3baseUrl "t1").routes := by
    refine mem_routes_of_probe c3server c3anchors [] c3baseUrl "t1"
      "/robots.txt" hp _ ?_
    rw [probeOne_routesAdded_of_some c3server c3anchors [] "t1" "/robots.txt"
      _ hres (by decide)]
    exact List.mem_cons_of_mem _ (List.mem_append_left _
      (mem_robotsRoutesOf _ "Disallow: /hidden-admin\n"
        "Disallow: /hidden-admin" "/hidden-admin" rfl (by decide) (by decide)
        (by decide)))
  have hgc : getCachedPaths c3cache c3baseUrl = DISCOVERY_PATHS := by
    show getCachedPaths (updateCache [] c3baseUrl c3run1.newEntries)
      c3baseUrl = _
    rw [getCachedPaths_updateCache_nil]
    show (discoverRoutes c3server c3anchors [] c3baseUrl
      "t1").newEntries.map (·.path) = _
    rw [discoverRoutes_newEntries_paths, pathsToSearch_empty_cache]
  have hnil : pathsToSearch c3cache c3baseUrl = [] :=
    pathsToSearch_nil_of_covered _ _
      (fun p hp' => by rw [hgc]; exact List.elem_eq_true_of_mem hp')
  have hrun2 : c3run2 =
      ⟨dedupRoutes ((getCachedExistingPaths c3cache c3baseUrl).map
        (fun e => ⟨e.path, .GET⟩)), []⟩ :=
    discoverRoutes_of_no_paths _ _ _ _ _ hnil
  have hex : getCachedExistingPaths c3cache c3baseUrl =
      c3run1.newEntries.filter (·.«exists») :=
    getCachedExistingPaths_updateCache_nil _ _
  have hfil : c3run1.newEntries.filter (·.«exists») =
      [⟨"/robots.txt", true, some 200, "t1"⟩] := by
    show ((discoverRoutes c3server c3anchors [] c3baseUrl
      "t1").newEntries).filter _ = _
    rw [discoverRoutes_newEntries, pathsToSearch_empty_cache]
    decide
  refine ⟨List.mem_map.mpr ⟨⟨"/hidden-admin", .GET⟩, hr1, rfl⟩, ?_, ?_⟩
  · rw [hrun2]
  · rw [hrun2, hex, hfil]
    decide

end Vibetest
